import Mathlib

/-!
Verification of the fabric-snippets audio core: the track cache
(`track_cache.js`), the buffer load manager (`AudioBufferManager`,
second half of `track_cache.js`), and the mixer channel
(`mixer_channel.js`).  Numbers (JS doubles holding clock times, gains,
tempos) are modelled as rationals; JS `undefined`/`null` sentinels for
time values are modelled as `Option`.
-/

namespace FabricSnippets

/-- Load status of a track record (`loadStatus` enum of the Track model).
Modelled from the spec: the Track model class is not part of the sources,
only its status enum {NOT_LOADED, LOADING, LOAD_SUCCESS, LOAD_FAILED} as
described in the spec's data model and used by `track_cache.js`. -/
inductive LoadStatus where
  | NOT_LOADED
  | LOADING
  | LOAD_SUCCESS
  | LOAD_FAILED
deriving DecidableEq, Repr

/-- A Track record.  Modelled from the spec: the Track model class is not in
the sources; per the spec's data model it carries an identity (`guid`), a
`loadStatus`, a decoded buffer (here only its presence, `hasBuffer`), and
immutable metadata of which only `bpm` is consumed by the sources. -/
structure Track where
  guid : String
  status : LoadStatus
  hasBuffer : Bool
  bpm : ℚ
deriving DecidableEq, Repr

/-- `track.setStatusLoading()`.  Modelled from the spec: a pure status write
to LOADING. -/
def setStatusLoading (t : Track) : Track :=
  { t with status := .LOADING }

/-- `track.setStatusLoadFailed()`.  Modelled from the spec: a pure status
write to LOAD_FAILED. -/
def setStatusLoadFailed (t : Track) : Track :=
  { t with status := .LOAD_FAILED }

/-- `track.setStatusNotLoaded(shouldUnloadBuffer)`.  Modelled from the spec:
sets status NOT_LOADED, releasing the buffer when `shouldUnloadBuffer`
(eviction in `track_cache.js` passes `true`). -/
def setStatusNotLoaded (shouldUnloadBuffer : Bool) (t : Track) : Track :=
  { t with status := .NOT_LOADED,
           hasBuffer := if shouldUnloadBuffer then false else t.hasBuffer }

/-- `track.setAudioBuffer(buffer)`.  Modelled from the spec and the source
comment in `pLoadSingleTrack` ("set audio buffer also sets status as load
success"): stores the decoded buffer and moves the status to LOAD_SUCCESS. -/
def setAudioBuffer (t : Track) : Track :=
  { t with status := .LOAD_SUCCESS, hasBuffer := true }

/-- `track.isStatusLoadSuccess() || track.isStatusLoading()` - the tracks
that take up memory (`_getNumTracksLoadedOrLoading` in `track_cache.js`). -/
def isLoadedOrLoading (t : Track) : Bool :=
  t.status == .LOAD_SUCCESS || t.status == .LOADING

/-- The `_cache` JS object of `track_cache.js`, keyed by track guid.  A JS
object with string keys iterates in insertion order, so it is modelled as a
list of track records (guids unique in every reachable state); the mutation
of a `Track` object reached through the cache is modelled as an update of
the entry with that guid. -/
abbrev Cache := List Track

/-- `MAX_TRACKS` (`track_cache.js` line 25). -/
def MAX_TRACKS : Nat := 6

/-- `_getNumTracksLoadedOrLoading()` of `track_cache.js`. -/
def getNumTracksLoadedOrLoading (c : Cache) : Nat :=
  (c.filter isLoadedOrLoading).length

/-- `_cache[trackGuid]` lookup (`getTrack` returns the entry or null). -/
def findTrack (c : Cache) (g : String) : Option Track :=
  c.find? (fun t => t.guid == g)

/-- `contains(trackGuid)`: `trackGuid in _cache`. -/
def containsC (c : Cache) (g : String) : Bool :=
  (findTrack c g).isSome

/-- Mutation of the (unique) cache entry with guid `g`: the JS sources
mutate the `Track` object in place through the shared reference. -/
def updateFirst (g : String) (f : Track → Track) : Cache → Cache
  | [] => []
  | t :: rest => if t.guid == g then f t :: rest else t :: updateFirst g f rest

/-- The eviction scan of `_checkAndMakeSpace` (`track_cache.js` lines
145-154): walk the cache in iteration order and unload the first entry that
is LOAD_SUCCESS and whose guid is not bound to a channel (`break` after the
first hit).  Returns the mutated cache and `madeRoom`. -/
def evictFirst (trackGuidsInChannels : List String) : Cache → Cache × Bool
  | [] => ([], false)
  | t :: rest =>
    if t.status == .LOAD_SUCCESS && !(trackGuidsInChannels.contains t.guid) then
      (setStatusNotLoaded true t :: rest, true)
    else
      let r := evictFirst trackGuidsInChannels rest
      (t :: r.1, r.2)

/-- `_checkAndMakeSpace(targetTrackGuid)` of `track_cache.js`.  The pin set
`AudioGraphStore.getTrackGuids()` is an external input and is passed as the
`pins` parameter.  `targetTrackGuid` always comes from `track.getGuid()` and
is a string, so the `typeof` guard always holds. -/
def checkAndMakeSpace (pins : List String) (targetTrackGuid : String)
    (c : Cache) : Cache × Bool :=
  if MAX_TRACKS ≤ getNumTracksLoadedOrLoading c then
    match findTrack c targetTrackGuid with
    | some t =>
      if t.status == .LOAD_SUCCESS || t.status == .LOADING then (c, true)
      else evictFirst pins c
    | none => evictFirst pins c
  else
    (c, true)

/-- `addTrackAsLoading(track)` of `track_cache.js`.  `none` models the
`TrackCacheOutOfMemory` throw; on success the call returns `true` and the
new cache is given.  The unconditional `track.setStatusLoading()` acts on
the cache entry with the track's guid when one exists (the sources share
`Track` objects between callers and cache), otherwise on the appended track. -/
def addTrackAsLoading (pins : List String) (track : Track) (c : Cache) :
    Option Cache :=
  let r := checkAndMakeSpace pins track.guid c
  if !r.2 then
    none
  else
    if containsC r.1 track.guid then
      some (updateFirst track.guid setStatusLoading r.1)
    else
      some (r.1 ++ [setStatusLoading track])

/-- A sequence of `addTrackAsLoading` calls, each with its own pin set;
a call that throws (`none`) leaves the cache unchanged. -/
def runAdds : List (List String × Track) → Cache → Cache
  | [], c => c
  | (pins, tr) :: rest, c =>
    match addTrackAsLoading pins tr c with
    | some c' => runAdds rest c'
    | none => runAdds rest c

/-! ### Counting lemmas for the cache bound -/

theorem isLoadedOrLoading_setLoading (t : Track) :
    isLoadedOrLoading (setStatusLoading t) = true := by
  simp [isLoadedOrLoading, setStatusLoading]

theorem getNum_cons (t : Track) (c : Cache) :
    getNumTracksLoadedOrLoading (t :: c) =
      (if isLoadedOrLoading t then 1 else 0) + getNumTracksLoadedOrLoading c := by
  simp only [getNumTracksLoadedOrLoading, List.filter]
  cases h : isLoadedOrLoading t <;> simp [h, Nat.add_comm]

theorem getNum_append_one (c : Cache) (t : Track) :
    getNumTracksLoadedOrLoading (c ++ [t]) =
      getNumTracksLoadedOrLoading c + (if isLoadedOrLoading t then 1 else 0) := by
  simp only [getNumTracksLoadedOrLoading, List.filter_append, List.length_append]
  cases h : isLoadedOrLoading t <;> simp [List.filter, h]

theorem getNum_updateFirst_le (g : String) (c : Cache) :
    getNumTracksLoadedOrLoading (updateFirst g setStatusLoading c) ≤
      getNumTracksLoadedOrLoading c + 1 := by
  induction c with
  | nil => simp [updateFirst]
  | cons t rest ih =>
    simp only [updateFirst]
    by_cases h : (t.guid == g) = true
    · rw [if_pos h, getNum_cons, getNum_cons, isLoadedOrLoading_setLoading]
      split_ifs <;> omega
    · rw [if_neg h, getNum_cons, getNum_cons]
      omega

theorem getNum_updateFirst_of_counted (g : String) (c : Cache) (t : Track)
    (hfind : findTrack c g = some t) (hll : isLoadedOrLoading t = true) :
    getNumTracksLoadedOrLoading (updateFirst g setStatusLoading c) =
      getNumTracksLoadedOrLoading c := by
  induction c with
  | nil => simp [findTrack] at hfind
  | cons u rest ih =>
    simp only [findTrack, List.find?] at hfind
    by_cases h : (u.guid == g) = true
    · rw [h] at hfind
      simp only [cond_true] at hfind
      cases hfind
      simp only [updateFirst, h, if_pos]
      rw [getNum_cons, getNum_cons, isLoadedOrLoading_setLoading, hll]
    · rw [Bool.not_eq_true] at h
      rw [h] at hfind
      simp only [cond_false] at hfind
      simp only [updateFirst, h, Bool.false_eq_true, if_false]
      rw [getNum_cons, getNum_cons, ih hfind]

theorem evictFirst_true (pins : List String) (c : Cache) (c' : Cache)
    (h : evictFirst pins c = (c', true)) :
    getNumTracksLoadedOrLoading c = getNumTracksLoadedOrLoading c' + 1 := by
  induction c generalizing c' with
  | nil => simp [evictFirst] at h
  | cons t rest ih =>
    simp only [evictFirst] at h
    by_cases hcond : (t.status == LoadStatus.LOAD_SUCCESS && !pins.contains t.guid) = true
    · rw [if_pos hcond] at h
      injection h with h1 h2
      subst h1
      rw [getNum_cons, getNum_cons]
      have h1 : isLoadedOrLoading t = true := by
        simp only [Bool.and_eq_true, beq_iff_eq] at hcond
        simp [isLoadedOrLoading, hcond.1]
      have h2 : isLoadedOrLoading (setStatusNotLoaded true t) = false := by
        simp [isLoadedOrLoading, setStatusNotLoaded]
      rw [h1, h2]
      simp only [Bool.false_eq_true, if_false, if_pos]
      omega
    · rw [if_neg hcond] at h
      rcases hr : evictFirst pins rest with ⟨r1, r2⟩
      rw [hr] at h
      dsimp only at h
      injection h with h1 h2
      subst h2
      rw [← h1, getNum_cons, getNum_cons, ih r1 hr]
      omega

theorem evictFirst_false (pins : List String) (c : Cache) (c' : Cache)
    (h : evictFirst pins c = (c', false)) : c' = c := by
  induction c generalizing c' with
  | nil => simp only [evictFirst] at h; injection h with h1 h2; exact h1.symm
  | cons t rest ih =>
    simp only [evictFirst] at h
    by_cases hcond : (t.status == LoadStatus.LOAD_SUCCESS && !pins.contains t.guid) = true
    · rw [if_pos hcond] at h
      injection h with h1 h2
      cases h2
    · rw [if_neg hcond] at h
      rcases hr : evictFirst pins rest with ⟨r1, r2⟩
      rw [hr] at h
      injection h with h1 h2
      subst h2
      rw [← h1, ih r1 hr]

/-- After a successful space check against a cache within bound, either one
free slot exists, or the target guid is cached with a counted status (the
shortcut case) and the cache is unchanged within bound. -/
theorem checkAndMakeSpace_room (pins : List String) (g : String) (c c₁ : Cache)
    (h : checkAndMakeSpace pins g c = (c₁, true))
    (hc : getNumTracksLoadedOrLoading c ≤ MAX_TRACKS) :
    getNumTracksLoadedOrLoading c₁ < MAX_TRACKS ∨
      (getNumTracksLoadedOrLoading c₁ ≤ MAX_TRACKS ∧
        ∃ t, findTrack c₁ g = some t ∧ isLoadedOrLoading t = true) := by
  unfold checkAndMakeSpace at h
  split at h
  case isTrue hfull =>
    split at h
    case h_1 t hfind =>
      split at h
      case isTrue hstat =>
        injection h with h1 h2
        subst h1
        right
        refine ⟨hc, t, hfind, ?_⟩
        simpa [isLoadedOrLoading] using hstat
      case isFalse hstat =>
        left
        have := evictFirst_true pins c c₁ h
        omega
    case h_2 hfind =>
      left
      have := evictFirst_true pins c c₁ h
      omega
  case isFalse hfull =>
    injection h with h1 h2
    subst h1
    left
    omega

/-- One `addTrackAsLoading` call preserves the capacity bound. -/
theorem addTrackAsLoading_bound (pins : List String) (tr : Track)
    (c c' : Cache) (h : addTrackAsLoading pins tr c = some c')
    (hc : getNumTracksLoadedOrLoading c ≤ MAX_TRACKS) :
    getNumTracksLoadedOrLoading c' ≤ MAX_TRACKS := by
  unfold addTrackAsLoading at h
  rcases hr : checkAndMakeSpace pins tr.guid c with ⟨c₁, ok⟩
  rw [hr] at h
  dsimp only at h
  cases ok with
  | false => simp at h
  | true =>
    simp only [Bool.not_true, Bool.false_eq_true, if_false] at h
    rcases checkAndMakeSpace_room pins tr.guid c c₁ hr hc with hroom | ⟨hle, t, hfind, hll⟩
    · by_cases hcont : containsC c₁ tr.guid = true
      · rw [if_pos hcont] at h
        injection h with h1
        subst h1
        calc getNumTracksLoadedOrLoading (updateFirst tr.guid setStatusLoading c₁)
            ≤ getNumTracksLoadedOrLoading c₁ + 1 := getNum_updateFirst_le _ _
          _ ≤ MAX_TRACKS := by omega
      · rw [if_neg hcont] at h
        injection h with h1
        subst h1
        rw [getNum_append_one, isLoadedOrLoading_setLoading]
        simp only [if_pos]
        omega
    · have hcont : containsC c₁ tr.guid = true := by
        simp [containsC, hfind]
      rw [if_pos hcont] at h
      injection h with h1
      subst h1
      rw [getNum_updateFirst_of_counted tr.guid c₁ t hfind hll]
      exact hle

theorem runAdds_bound (ops : List (List String × Track)) (c : Cache)
    (hc : getNumTracksLoadedOrLoading c ≤ MAX_TRACKS) :
    getNumTracksLoadedOrLoading (runAdds ops c) ≤ MAX_TRACKS := by
  induction ops generalizing c with
  | nil => exact hc
  | cons op rest ih =>
    rcases op with ⟨pins, tr⟩
    simp only [runAdds]
    rcases hadd : addTrackAsLoading pins tr c with _ | c'
    · exact ih c hc
    · exact ih c' (addTrackAsLoading_bound pins tr c c' hadd hc)

/-- C1: for every sequence of `addTrackAsLoading` calls on the track cache
(starting from the empty cache; each call either returns `true` or throws
out-of-memory and mutates nothing), the number of cached entries whose
status is LOADING or LOAD_SUCCESS never exceeds `MAX_TRACKS`; NOT_LOADED
and LOAD_FAILED entries are not counted.  Every intermediate state of a
call sequence is `runAdds` of a prefix, so the bound holds at every point. -/
theorem C1_cache_never_exceeds_max (ops : List (List String × Track)) :
    getNumTracksLoadedOrLoading (runAdds ops []) ≤ MAX_TRACKS :=
  runAdds_bound ops [] (by simp [getNumTracksLoadedOrLoading])

theorem zip_self_eq (c : Cache) : ∀ p ∈ c.zip c, p.2 = p.1 := by
  induction c with
  | nil => simp
  | cons t rest ih =>
    intro p hp
    rw [List.zip_cons_cons] at hp
    rcases List.mem_cons.mp hp with h | h
    · subst h; rfl
    · exact ih p h

/-- The eviction scan changes an entry only if it is LOAD_SUCCESS and its
guid is not in the pin set, and then only into the unloaded form. -/
theorem evictFirst_entries (pins : List String) (c : Cache) :
    ∀ p ∈ c.zip (evictFirst pins c).1,
      p.2 = p.1 ∨
        (p.1.status = .LOAD_SUCCESS ∧ pins.contains p.1.guid = false ∧
         p.2 = setStatusNotLoaded true p.1) := by
  induction c with
  | nil => simp
  | cons t rest ih =>
    simp only [evictFirst]
    by_cases hcond : (t.status == LoadStatus.LOAD_SUCCESS && !pins.contains t.guid) = true
    · rw [if_pos hcond]
      intro p hp
      rw [List.zip_cons_cons] at hp
      rcases List.mem_cons.mp hp with h | h
      · subst h
        right
        simp only [Bool.and_eq_true, beq_iff_eq, Bool.not_eq_true'] at hcond
        exact ⟨hcond.1, hcond.2, rfl⟩
      · exact Or.inl (zip_self_eq rest p h)
    · rw [if_neg hcond]
      intro p hp
      rw [List.zip_cons_cons] at hp
      rcases List.mem_cons.mp hp with h | h
      · subst h; exact Or.inl rfl
      · exact ih p h

/-- C2: for every call to the space-making eviction of the track cache and
every pin set supplied by the pin source, every cache entry is either left
exactly as it was, or it was a LOAD_SUCCESS entry whose guid is not in the
pin set and it is transitioned to NOT_LOADED with its buffer released.  In
particular no pinned track is ever evicted, regardless of memory pressure. -/
theorem C2_pinned_never_evicted (pins : List String) (g : String)
    (c c' : Cache) (ok : Bool) (h : checkAndMakeSpace pins g c = (c', ok)) :
    ∀ p ∈ c.zip c',
      p.2 = p.1 ∨
        (p.1.status = .LOAD_SUCCESS ∧ pins.contains p.1.guid = false ∧
         p.2 = setStatusNotLoaded true p.1) := by
  unfold checkAndMakeSpace at h
  split at h
  case isTrue hfull =>
    split at h
    case h_1 t hfind =>
      split at h
      case isTrue hstat =>
        injection h with h1 h2
        subst h1
        exact fun p hp => Or.inl (zip_self_eq c p hp)
      case isFalse hstat =>
        intro p hp
        apply evictFirst_entries pins c
        rw [h]
        exact hp
    case h_2 hfind =>
      intro p hp
      apply evictFirst_entries pins c
      rw [h]
      exact hp
  case isFalse hfull =>
    injection h with h1 h2
    subst h1
    exact fun p hp => Or.inl (zip_self_eq c p hp)

/-- Witness for C2 at a concrete input: a full cache of six loaded tracks
with "a" pinned; making space for "g" evicts "b" (the first unpinned loaded
entry), and the evicted pair satisfies the allowed-change disjunct. -/
theorem C2_pinned_never_evicted_witness :
    ((⟨"b", .LOAD_SUCCESS, true, 120⟩, ⟨"b", .NOT_LOADED, false, 120⟩) :
        Track × Track).2 =
      (⟨"b", .LOAD_SUCCESS, true, 120⟩ : Track) ∨
      ((⟨"b", .LOAD_SUCCESS, true, 120⟩ : Track).status = .LOAD_SUCCESS ∧
       (["a"].contains (⟨"b", .LOAD_SUCCESS, true, 120⟩ : Track).guid) = false ∧
       ((⟨"b", .LOAD_SUCCESS, true, 120⟩, ⟨"b", .NOT_LOADED, false, 120⟩) :
          Track × Track).2 =
         setStatusNotLoaded true ⟨"b", .LOAD_SUCCESS, true, 120⟩) :=
  C2_pinned_never_evicted ["a"] "g"
    [⟨"a", .LOAD_SUCCESS, true, 120⟩, ⟨"b", .LOAD_SUCCESS, true, 120⟩,
     ⟨"c", .LOAD_SUCCESS, true, 120⟩, ⟨"d", .LOAD_SUCCESS, true, 120⟩,
     ⟨"e", .LOAD_SUCCESS, true, 120⟩, ⟨"f", .LOAD_SUCCESS, true, 120⟩]
    [⟨"a", .LOAD_SUCCESS, true, 120⟩, ⟨"b", .NOT_LOADED, false, 120⟩,
     ⟨"c", .LOAD_SUCCESS, true, 120⟩, ⟨"d", .LOAD_SUCCESS, true, 120⟩,
     ⟨"e", .LOAD_SUCCESS, true, 120⟩, ⟨"f", .LOAD_SUCCESS, true, 120⟩]
    true (by decide)
    (⟨"b", .LOAD_SUCCESS, true, 120⟩, ⟨"b", .NOT_LOADED, false, 120⟩)
    (by decide)

theorem findTrack_updateFirst (g : String) (f : Track → Track)
    (hf : ∀ t, (f t).guid = t.guid) (c : Cache) :
    findTrack (updateFirst g f c) g = (findTrack c g).map f := by
  induction c with
  | nil => simp [updateFirst, findTrack]
  | cons t rest ih =>
    simp only [updateFirst]
    by_cases h : (t.guid == g) = true
    · have hft : ((f t).guid == g) = true := by rw [hf]; exact h
      rw [if_pos h]
      simp [findTrack, h, hft]
    · rw [if_neg h]
      simpa [findTrack, h] using ih

theorem findTrack_append_self (c : Cache) (t : Track)
    (hc : containsC c t.guid = false) :
    findTrack (c ++ [t]) t.guid = some t := by
  have hnone : List.find? (fun u => u.guid == t.guid) c = none := by
    rcases hf : List.find? (fun u => u.guid == t.guid) c with _ | u
    · exact hf
    · rw [containsC, findTrack, hf] at hc
      simp at hc
  simp [findTrack, List.find?_append, hnone]

/-- After every non-throwing `addTrackAsLoading(track)` call the track's
cache entry has status LOADING. -/
theorem addTrackAsLoading_status_loading (pins : List String) (tr : Track)
    (c c' : Cache) (h : addTrackAsLoading pins tr c = some c') :
    (findTrack c' tr.guid).map Track.status = some .LOADING := by
  unfold addTrackAsLoading at h
  rcases hr : checkAndMakeSpace pins tr.guid c with ⟨c₁, ok⟩
  rw [hr] at h
  dsimp only at h
  cases ok with
  | false => simp at h
  | true =>
    simp only [Bool.not_true, Bool.false_eq_true, if_false] at h
    by_cases hcont : containsC c₁ tr.guid = true
    · rw [if_pos hcont] at h
      injection h with h1
      subst h1
      rw [findTrack_updateFirst tr.guid setStatusLoading (fun _ => rfl) c₁]
      rcases hf : findTrack c₁ tr.guid with _ | t
      · rw [containsC, hf] at hcont
        simp at hcont
      · simp [setStatusLoading]
    · rw [if_neg hcont] at h
      injection h with h1
      subst h1
      have hc₁ : containsC c₁ (setStatusLoading tr).guid = false := by
        simpa [setStatusLoading] using (Bool.not_eq_true _).mp hcont
      rw [show tr.guid = (setStatusLoading tr).guid from rfl,
          findTrack_append_self c₁ (setStatusLoading tr) hc₁]
      simp [setStatusLoading]

/-- C10: after every non-throwing `addTrackAsLoading(track)` call the
track's cache entry has status LOADING - also when the track was already
cached as LOAD_SUCCESS, in which case the loaded entry is downgraded to
LOADING: the already-cached shortcut of the space check does not skip the
unconditional `track.setStatusLoading()` write. -/
theorem C10_status_loading_after_add (pins : List String) (tr : Track)
    (c c' : Cache) (h : addTrackAsLoading pins tr c = some c') :
    (findTrack c' tr.guid).map Track.status = some .LOADING :=
  addTrackAsLoading_status_loading pins tr c c' h

/-- Witness for C10 at a concrete input: a full cache of six loaded tracks;
re-adding the already loaded "a" succeeds through the shortcut and leaves
its entry downgraded to LOADING. -/
theorem C10_status_loading_after_add_witness :
    (findTrack
        [⟨"a", .LOADING, true, 120⟩, ⟨"b", .LOAD_SUCCESS, true, 120⟩,
         ⟨"c", .LOAD_SUCCESS, true, 120⟩, ⟨"d", .LOAD_SUCCESS, true, 120⟩,
         ⟨"e", .LOAD_SUCCESS, true, 120⟩, ⟨"f", .LOAD_SUCCESS, true, 120⟩]
        (Track.guid ⟨"a", .LOAD_SUCCESS, true, 120⟩)).map Track.status =
      some .LOADING :=
  C10_status_loading_after_add [] ⟨"a", .LOAD_SUCCESS, true, 120⟩
    [⟨"a", .LOAD_SUCCESS, true, 120⟩, ⟨"b", .LOAD_SUCCESS, true, 120⟩,
     ⟨"c", .LOAD_SUCCESS, true, 120⟩, ⟨"d", .LOAD_SUCCESS, true, 120⟩,
     ⟨"e", .LOAD_SUCCESS, true, 120⟩, ⟨"f", .LOAD_SUCCESS, true, 120⟩]
    [⟨"a", .LOADING, true, 120⟩, ⟨"b", .LOAD_SUCCESS, true, 120⟩,
     ⟨"c", .LOAD_SUCCESS, true, 120⟩, ⟨"d", .LOAD_SUCCESS, true, 120⟩,
     ⟨"e", .LOAD_SUCCESS, true, 120⟩, ⟨"f", .LOAD_SUCCESS, true, 120⟩]
    (by decide)

/-! ### Buffer load manager (`AudioBufferManager.pLoadSingleTrack`) -/

/-- Outcome kinds of the `pLoadSingleTrack` promise. -/
inductive LoadResult where
  | resolved
  | alreadyLoading
  | outOfMemory
  | fetchError
  | decodeError
deriving DecidableEq, Repr

/-- Result of one `pLoadSingleTrack` call: how the promise settled, the
cache afterwards, and whether the external fetch was issued at all. -/
structure LoadOutcome where
  result : LoadResult
  cache : Cache
  didFetch : Bool
deriving DecidableEq, Repr

/-- The fetch-and-decode tail of `pLoadSingleTrack` (the `shouldGetTrack`
path): mark the track loading in the cache (rejecting with the propagated
out-of-memory message if `addTrackAsLoading` throws), then the S3 fetch and
`decodeAudioData`, whose success or failure is an external input
(`fetchOk`, `decodeOk`).  On fetch error the track is marked LOAD_FAILED
and the promise rejects; on decode error likewise; on success
`setAudioBuffer` stores the buffer (implicitly LOAD_SUCCESS) and the
promise resolves. -/
def pLoadFetchDecode (pins : List String) (track : Track) (c : Cache)
    (fetchOk decodeOk : Bool) : LoadOutcome :=
  match addTrackAsLoading pins track c with
  | none => ⟨.outOfMemory, c, false⟩
  | some c₁ =>
    if !fetchOk then
      ⟨.fetchError, updateFirst track.guid setStatusLoadFailed c₁, true⟩
    else if !decodeOk then
      ⟨.decodeError, updateFirst track.guid setStatusLoadFailed c₁, true⟩
    else
      ⟨.resolved, updateFirst track.guid setAudioBuffer c₁, true⟩

/-- `pLoadSingleTrack(track)` of the buffer load manager: if the track is
cached and LOADING the promise rejects immediately ("already loading"); if
cached and LOAD_SUCCESS it resolves immediately; the two source `if`s are
on mutually exclusive statuses, so at most one fires and `shouldGetTrack`
stays true exactly when neither does. -/
def pLoadSingleTrack (pins : List String) (track : Track) (c : Cache)
    (fetchOk decodeOk : Bool) : LoadOutcome :=
  match findTrack c track.guid with
  | some cachedTrack =>
    if cachedTrack.status == .LOADING then ⟨.alreadyLoading, c, false⟩
    else if cachedTrack.status == .LOAD_SUCCESS then ⟨.resolved, c, false⟩
    else pLoadFetchDecode pins track c fetchOk decodeOk
  | none => pLoadFetchDecode pins track c fetchOk decodeOk

/-- A successful `addTrackAsLoading` leaves the target guid present. -/
theorem addTrackAsLoading_contains (pins : List String) (tr : Track)
    (c c' : Cache) (h : addTrackAsLoading pins tr c = some c') :
    containsC c' tr.guid = true := by
  have := addTrackAsLoading_status_loading pins tr c c' h
  rcases hf : findTrack c' tr.guid with _ | t
  · rw [hf] at this
    simp at this
  · simp [containsC, hf]

/-- The cached statuses that bypass the load path take the early branches. -/
theorem pLoadSingleTrack_load_path (pins : List String) (tr : Track)
    (c : Cache) (f d : Bool)
    (hpath : ∀ t, findTrack c tr.guid = some t →
      t.status ≠ .LOADING ∧ t.status ≠ .LOAD_SUCCESS) :
    pLoadSingleTrack pins tr c f d = pLoadFetchDecode pins tr c f d := by
  unfold pLoadSingleTrack
  rcases hf : findTrack c tr.guid with _ | t
  · rfl
  · have ht := hpath t hf
    have h1 : (t.status == LoadStatus.LOADING) = false := by
      simp [ht.1]
    have h2 : (t.status == LoadStatus.LOAD_SUCCESS) = false := by
      simp [ht.2]
    dsimp only
    rw [h1, h2]
    simp

/-- Status of the target entry after the failure/success writes of the
load tail. -/
theorem findTrack_after_write (g : String) (f : Track → Track)
    (hf : ∀ t, (f t).guid = t.guid) (c₁ : Cache)
    (hcont : containsC c₁ g = true) :
    ∃ w, findTrack (updateFirst g f c₁) g = some (f w) := by
  rcases hw : findTrack c₁ g with _ | w
  · rw [containsC, hw] at hcont
    simp at hcont
  · exact ⟨w, by rw [findTrack_updateFirst g f hf c₁, hw]; rfl⟩

/-- C6: `pLoadSingleTrack` resolves immediately with no fetch/decode work
when the track is cached LOAD_SUCCESS; rejects immediately ("already
loading") when cached LOADING; on fetch failure marks the track LOAD_FAILED
and rejects with the fetch-error condition; on decode failure marks it
LOAD_FAILED and rejects with the decode-error condition; on success stores
the decoded buffer on the track (making it LOAD_SUCCESS) and resolves. -/
theorem C6_pLoadSingleTrack_behaviour :
    (∀ pins tr c f d t, findTrack c tr.guid = some t →
       t.status = .LOAD_SUCCESS →
       pLoadSingleTrack pins tr c f d = ⟨.resolved, c, false⟩) ∧
    (∀ pins tr c f d t, findTrack c tr.guid = some t →
       t.status = .LOADING →
       pLoadSingleTrack pins tr c f d = ⟨.alreadyLoading, c, false⟩) ∧
    (∀ pins tr c c₁ d,
       (∀ t, findTrack c tr.guid = some t →
         t.status ≠ .LOADING ∧ t.status ≠ .LOAD_SUCCESS) →
       addTrackAsLoading pins tr c = some c₁ →
       (pLoadSingleTrack pins tr c false d).result = .fetchError ∧
       (findTrack (pLoadSingleTrack pins tr c false d).cache tr.guid).map
         Track.status = some .LOAD_FAILED) ∧
    (∀ pins tr c c₁,
       (∀ t, findTrack c tr.guid = some t →
         t.status ≠ .LOADING ∧ t.status ≠ .LOAD_SUCCESS) →
       addTrackAsLoading pins tr c = some c₁ →
       (pLoadSingleTrack pins tr c true false).result = .decodeError ∧
       (findTrack (pLoadSingleTrack pins tr c true false).cache tr.guid).map
         Track.status = some .LOAD_FAILED) ∧
    (∀ pins tr c c₁,
       (∀ t, findTrack c tr.guid = some t →
         t.status ≠ .LOADING ∧ t.status ≠ .LOAD_SUCCESS) →
       addTrackAsLoading pins tr c = some c₁ →
       (pLoadSingleTrack pins tr c true true).result = .resolved ∧
       (findTrack (pLoadSingleTrack pins tr c true true).cache tr.guid).map
         Track.status = some .LOAD_SUCCESS ∧
       (findTrack (pLoadSingleTrack pins tr c true true).cache tr.guid).map
         Track.hasBuffer = some true) := by
  refine ⟨?_, ?_, ?_, ?_, ?_⟩
  · intro pins tr c f d t hfind hstat
    unfold pLoadSingleTrack
    rw [hfind]
    simp [hstat]
  · intro pins tr c f d t hfind hstat
    unfold pLoadSingleTrack
    rw [hfind]
    simp [hstat]
  · intro pins tr c c₁ d hpath hadd
    rw [pLoadSingleTrack_load_path pins tr c false d hpath]
    unfold pLoadFetchDecode
    rw [hadd]
    simp only [Bool.not_false, if_true]
    refine ⟨by trivial, ?_⟩
    obtain ⟨w, hw⟩ := findTrack_after_write tr.guid setStatusLoadFailed
      (fun _ => rfl) c₁ (addTrackAsLoading_contains pins tr c c₁ hadd)
    rw [hw]
    rfl
  · intro pins tr c c₁ hpath hadd
    rw [pLoadSingleTrack_load_path pins tr c true false hpath]
    unfold pLoadFetchDecode
    rw [hadd]
    simp only [Bool.not_true, Bool.false_eq_true, if_false, Bool.not_false, if_true]
    refine ⟨by trivial, ?_⟩
    obtain ⟨w, hw⟩ := findTrack_after_write tr.guid setStatusLoadFailed
      (fun _ => rfl) c₁ (addTrackAsLoading_contains pins tr c c₁ hadd)
    rw [hw]
    rfl
  · intro pins tr c c₁ hpath hadd
    rw [pLoadSingleTrack_load_path pins tr c true true hpath]
    unfold pLoadFetchDecode
    rw [hadd]
    simp only [Bool.not_true, Bool.false_eq_true, if_false]
    obtain ⟨w, hw⟩ := findTrack_after_write tr.guid setAudioBuffer
      (fun _ => rfl) c₁ (addTrackAsLoading_contains pins tr c c₁ hadd)
    refine ⟨by trivial, ?_, ?_⟩ <;> rw [hw] <;> rfl

/-- Witness for C6 at concrete inputs: a loaded cached track resolves with
no fetch; a loading one rejects; a fresh track under fetch failure, decode
failure and success shows the three load-tail outcomes. -/
theorem C6_pLoadSingleTrack_behaviour_witness :
    pLoadSingleTrack [] ⟨"a", .NOT_LOADED, false, 120⟩
        [⟨"a", .LOAD_SUCCESS, true, 120⟩] true true =
      ⟨.resolved, [⟨"a", .LOAD_SUCCESS, true, 120⟩], false⟩ ∧
    pLoadSingleTrack [] ⟨"b", .NOT_LOADED, false, 120⟩
        [⟨"b", .LOADING, false, 120⟩] true true =
      ⟨.alreadyLoading, [⟨"b", .LOADING, false, 120⟩], false⟩ ∧
    ((pLoadSingleTrack [] ⟨"c", .NOT_LOADED, false, 120⟩ [] false true).result =
        .fetchError ∧
      (findTrack
        (pLoadSingleTrack [] ⟨"c", .NOT_LOADED, false, 120⟩ [] false true).cache
        (Track.guid ⟨"c", .NOT_LOADED, false, 120⟩)).map Track.status =
        some .LOAD_FAILED) ∧
    ((pLoadSingleTrack [] ⟨"c", .NOT_LOADED, false, 120⟩ [] true false).result =
        .decodeError ∧
      (findTrack
        (pLoadSingleTrack [] ⟨"c", .NOT_LOADED, false, 120⟩ [] true false).cache
        (Track.guid ⟨"c", .NOT_LOADED, false, 120⟩)).map Track.status =
        some .LOAD_FAILED) ∧
    ((pLoadSingleTrack [] ⟨"c", .NOT_LOADED, false, 120⟩ [] true true).result =
        .resolved ∧
      (findTrack
        (pLoadSingleTrack [] ⟨"c", .NOT_LOADED, false, 120⟩ [] true true).cache
        (Track.guid ⟨"c", .NOT_LOADED, false, 120⟩)).map Track.status =
        some .LOAD_SUCCESS ∧
      (findTrack
        (pLoadSingleTrack [] ⟨"c", .NOT_LOADED, false, 120⟩ [] true true).cache
        (Track.guid ⟨"c", .NOT_LOADED, false, 120⟩)).map Track.hasBuffer =
        some true) :=
  ⟨C6_pLoadSingleTrack_behaviour.1 [] ⟨"a", .NOT_LOADED, false, 120⟩
      [⟨"a", .LOAD_SUCCESS, true, 120⟩] true true
      ⟨"a", .LOAD_SUCCESS, true, 120⟩ (by decide) rfl,
   C6_pLoadSingleTrack_behaviour.2.1 [] ⟨"b", .NOT_LOADED, false, 120⟩
      [⟨"b", .LOADING, false, 120⟩] true true
      ⟨"b", .LOADING, false, 120⟩ (by decide) rfl,
   C6_pLoadSingleTrack_behaviour.2.2.1 [] ⟨"c", .NOT_LOADED, false, 120⟩ []
      [⟨"c", .LOADING, false, 120⟩] true
      (fun t ht => by simp [findTrack] at ht) (by decide),
   C6_pLoadSingleTrack_behaviour.2.2.2.1 [] ⟨"c", .NOT_LOADED, false, 120⟩ []
      [⟨"c", .LOADING, false, 120⟩]
      (fun t ht => by simp [findTrack] at ht) (by decide),
   C6_pLoadSingleTrack_behaviour.2.2.2.2 [] ⟨"c", .NOT_LOADED, false, 120⟩ []
      [⟨"c", .LOADING, false, 120⟩]
      (fun t ht => by simp [findTrack] at ht) (by decide)⟩

/-! ### Mixer channel (`mixer_channel.js`)

Engine clock readings (`audioContext.currentTime`, seconds) enter each
operation as the parameter `nowMS` already converted to milliseconds
(`TimeUtil.secToMS` multiplies by 1000); times scheduled on nodes are kept
in seconds as the engine receives them (`TimeUtil.msToSec` divides by
1000).  `TimeUtil` and `TypeUtil` are not part of the sources; modelled
from the spec: a "bad" time value (null/undefined/NaN, the spec's
`BadTimeValue`) is `Option.none` and is silently normalized to the
documented default. -/

/-- `MixerChannel.playStates` (`mixer_channel.js` lines 845-851). -/
inductive PlayState where
  | STOPPED
  | STOPPED_AND_PLAY_SCHEDULED
  | PLAYING_AND_STOP_SCHEDULED
  | PLAYING
deriving DecidableEq, Repr

/-- `TrackAction.types`. -/
inductive ActionType where
  | PLAY
  | STOP
  | PAUSE
  | PITCH
  | GAIN_FADE
deriving DecidableEq, Repr

/-- `TrackAction.targets`. -/
inductive ActionTarget where
  | SOURCE
  | GAIN
deriving DecidableEq, Repr

/-- A TrackAction.  Modelled from the spec: the action model class is not
in the sources; per the spec's data model it is immutable and carries a
type, a target node, the track id, the absolute action time (with the
sentinel `AT_TIME_NOW = -1` meaning "immediately") and the type-specific
payloads read by `addActionMc` (`getActionOffsetMS`, `getPitchValueApplied`,
`getEndVal`, `getFadeNumBeats`). -/
structure TrackAction where
  actionType : ActionType
  target : ActionTarget
  trackGuid : String
  atTimeMSAbs : ℚ
  offsetMS : Option ℚ
  pitchValue : ℚ
  endVal : ℚ
  fadeNumBeats : ℚ
deriving DecidableEq, Repr

/-- One `linearRampToValueAtTime(value, timeSec)` event on the gain param. -/
structure GainEvent where
  value : ℚ
  timeSec : ℚ
deriving DecidableEq, Repr

/-- The channel's gain node: its scheduled ramp events (`_createGainNode`
starts with `gain.value = 1` and no events). -/
structure GainNode where
  events : List GainEvent
deriving DecidableEq, Repr

/-- A fresh gain node as built by `_createGainNode`. -/
def freshGainNode : GainNode := ⟨[]⟩

/-- The channel's one-shot buffer source node: whether `start()` has been
called, the scheduled start/stop times and offset (seconds), and the
playback-rate events scheduled on it. -/
structure SourceNode where
  started : Bool
  startAtSec : Option ℚ
  startOffsetSec : Option ℚ
  stopAtSec : Option ℚ
  pitchEvents : List (ℚ × ℚ)
deriving DecidableEq, Repr

/-- A fresh source node as built by `createBufferSource()`. -/
def freshSourceNode : SourceNode := ⟨false, none, none, none, []⟩

/-- Failures thrown out of the mixer channel operations:
`TrackNotLoaded`, `IllegalParam` (non-positive bpm in `_actionGainFade`)
and the TypeError of calling `connect` on a null `sourceNode`
(`clearActions` with `forceGainNodeReset` when no source node exists). -/
inductive McError where
  | TrackNotLoaded
  | IllegalParam
  | TypeErrorNullSource
deriving DecidableEq, Repr

/-- The `MixerChannel` instance state.  `startScheduledTimeMS`,
`stopScheduledTimeMS`, `startedAtOffsetMS`, `stoppedAtOffsetMS` are
`none` when holding `COMMON_CONST.INVALID_TIME_VAL`. -/
structure MixerChannel where
  track : Track
  gainNode : GainNode
  sourceNode : Option SourceNode
  actionsAddedCollection : List (TrackAction × ℚ)
  playState : PlayState
  startScheduledTimeMS : Option ℚ
  stopScheduledTimeMS : Option ℚ
  startedAtOffsetMS : Option ℚ
  stoppedAtOffsetMS : Option ℚ
  preBendPitchValue : Option ℚ
  isBent : Bool
deriving DecidableEq, Repr

/-- `MixerChannel.constants.AT_TIME_NOW` (= -1). -/
def AT_TIME_NOW : ℚ := -1

/-- `TimeUtil.isBadTime` normalization: a missing/invalid time parameter
defaults to 0 (`addActionMc` lines 115-123).  Modelled from the spec
(`BadTimeValue` is "silently normalized to a default of zero"). -/
def normTime (t : Option ℚ) : ℚ := t.getD 0

/-- `NumberUtil.isPositive`.  Modelled from the spec/source name: true for
a (finite) number strictly greater than zero. -/
def isPositive (q : ℚ) : Bool := decide (0 < q)

/-- `_filterAtTimeNow(mc, timeMS)`: the `AT_TIME_NOW` sentinel is replaced
by the current engine clock reading in milliseconds. -/
def filterAtTimeNow (nowMS : ℚ) (timeMS : ℚ) : ℚ :=
  if timeMS = AT_TIME_NOW then nowMS else timeMS

/-- The read of `mc._playStates` on `mixer_channel.js` line 721: the
property `_playStates` is never assigned anywhere in the source (the field
is `_playState`), so in JS the access yields `undefined`, modelled as
`none`; its comparison against a play state is therefore always false. -/
def playStatesTypo (_ : MixerChannel) : Option PlayState := none

/-- `currentTimeMS >= timeField` where the field may hold the invalid
sentinel; both scheduled-state branches of `_getPlayState` only ever read
the field after it was assigned a number. -/
def timeReached (t : Option ℚ) (nowMS : ℚ) : Bool :=
  match t with
  | some v => decide (v ≤ nowMS)
  | none => false

/-- `_getPlayState(mc)`: lazily detects the scheduled-play transition from
the engine clock and memoizes it on the channel.  The second branch
compares `mc._playStates` (the absent property, see `playStatesTypo`)
against PLAYING_AND_STOP_SCHEDULED, so the scheduled-stop transition is
never detected here. -/
def getPlayState (nowMS : ℚ) (mc : MixerChannel) : PlayState × MixerChannel :=
  if mc.playState = .STOPPED_AND_PLAY_SCHEDULED then
    if timeReached mc.startScheduledTimeMS nowMS then
      let mc := { mc with playState := .PLAYING }
      (mc.playState, mc)
    else
      (mc.playState, mc)
  else if playStatesTypo mc = some .PLAYING_AND_STOP_SCHEDULED then
    if timeReached mc.stopScheduledTimeMS nowMS then
      let mc := { mc with playState := .STOPPED }
      (mc.playState, mc)
    else
      (mc.playState, mc)
  else
    (mc.playState, mc)

/-- `getTrackCurrentOffsetMS()`: `none` models `COMMON_CONST.INVALID_VAL`
(and the unreachable arithmetic on unset sentinel fields in the playing
branch). -/
def getTrackCurrentOffsetMS (nowMS : ℚ) (mc : MixerChannel) :
    Option ℚ × MixerChannel :=
  let r := getPlayState nowMS mc
  match r.1 with
  | .STOPPED | .STOPPED_AND_PLAY_SCHEDULED =>
    (r.2.stoppedAtOffsetMS, r.2)
  | .PLAYING | .PLAYING_AND_STOP_SCHEDULED =>
    match r.2.startedAtOffsetMS, r.2.startScheduledTimeMS with
    | some so, some ss => (some (so + (nowMS - ss)), r.2)
    | _, _ => (none, r.2)

/-- `_resetPlayAttributes()`. -/
def resetPlayAttributes (mc : MixerChannel) : MixerChannel :=
  { mc with playState := .STOPPED,
            startScheduledTimeMS := none,
            stopScheduledTimeMS := none,
            startedAtOffsetMS := none,
            stoppedAtOffsetMS := none }

/-- `_sourceNodeRecreate(mc, deleteOldNode, addBackOldActions)`.  The gain
node always exists (the constructor builds it before the first call and
`clearActions` rebuilds it), so the `!mc.gainNode` guard cannot fire.
Every call site in the source passes `addBackOldActions = false` - the
constructor, `_ensureSourceNodePresent`, `clearActions` and
`_processPlaybackEnded` - under which the replay branch is dead and the
collection of added actions is reset to a fresh empty one; the replay
branch is therefore not modelled. -/
def sourceNodeRecreate (mc : MixerChannel) (deleteOldNode : Bool) :
    MixerChannel × Bool :=
  if mc.sourceNode.isSome && !deleteOldNode then
    -- "source already present - not creating"
    (mc, true)
  else
    if mc.track.hasBuffer then
      ({ mc with sourceNode := some freshSourceNode,
                 actionsAddedCollection := [] }, true)
    else
      ({ mc with sourceNode := none }, false)

/-- `_ensureSourceNodePresent(mc)`. -/
def ensureSourceNodePresent (mc : MixerChannel) : MixerChannel × Bool :=
  sourceNodeRecreate mc false

/-- `_actionPlayHelper(mc, atTimeMS, offsetMS)`: schedules `start` on the
source node (a second `start` throws a DOMException that is caught and
logged, leaving the node untouched), records the scheduled time and offset
and moves the state to STOPPED_AND_PLAY_SCHEDULED. -/
def actionPlayHelper (mc : MixerChannel) (atTimeMS offsetMS : ℚ) :
    MixerChannel :=
  let sn := mc.sourceNode.map (fun n =>
    if n.started then n
    else { n with started := true,
                  startAtSec := some (atTimeMS / 1000),
                  startOffsetSec := some (offsetMS / 1000) })
  { mc with sourceNode := sn,
            startScheduledTimeMS := some atTimeMS,
            playState := .STOPPED_AND_PLAY_SCHEDULED,
            startedAtOffsetMS := some offsetMS }

/-- `_actionPlay(mc, atTimeMS, offsetMS)`.  `atTimeMS` is the number
computed by `addActionMc`, so the bad-time guard concerns only the
offset parameter; the PLAYING / scheduled states return
`actionAdded = false` whether or not the action time equals the current
time (the not-implemented branches only log). -/
def actionPlay (nowMS : ℚ) (mc : MixerChannel) (atTimeMS : ℚ)
    (offsetMS : Option ℚ) : MixerChannel × Bool :=
  let offMS : ℚ := normTime offsetMS
  let atT := filterAtTimeNow nowMS atTimeMS
  let r := getPlayState nowMS mc
  match r.1 with
  | .PLAYING => (r.2, false)
  | .PLAYING_AND_STOP_SCHEDULED => (r.2, false)
  | .STOPPED => (actionPlayHelper r.2 atT offMS, true)
  | .STOPPED_AND_PLAY_SCHEDULED => (r.2, false)

/-- `_actionStopHelper(mc, atTimeMS)`: schedules `stop`, records the stop
time, moves to PLAYING_AND_STOP_SCHEDULED and freezes the stopped-at
offset computed from the current position. -/
def actionStopHelper (nowMS : ℚ) (mc : MixerChannel) (atTimeMS : ℚ) :
    MixerChannel :=
  let sn := mc.sourceNode.map (fun n => { n with stopAtSec := some (atTimeMS / 1000) })
  let mc := { mc with sourceNode := sn,
                      stopScheduledTimeMS := some atTimeMS,
                      playState := .PLAYING_AND_STOP_SCHEDULED }
  let r := getTrackCurrentOffsetMS nowMS mc
  { r.2 with stoppedAtOffsetMS := r.1.map (fun o => o + atTimeMS - nowMS) }

/-- `_actionStop(mc, atTimeMS)`: only the PLAYING state accepts a stop. -/
def actionStop (nowMS : ℚ) (mc : MixerChannel) (atTimeMS : ℚ) :
    MixerChannel × Bool :=
  let atT := filterAtTimeNow nowMS atTimeMS
  let r := getPlayState nowMS mc
  match r.1 with
  | .PLAYING => (actionStopHelper nowMS r.2 atT, true)
  | .PLAYING_AND_STOP_SCHEDULED => (r.2, false)
  | .STOPPED => (r.2, false)
  | .STOPPED_AND_PLAY_SCHEDULED => (r.2, false)

/-- `_actionPause`: unimplemented, never adds. -/
def actionPause (mc : MixerChannel) : MixerChannel × Bool :=
  (mc, false)

/-- `_actionPitch(mc, atTimeMS, pitchValue)`: schedules a playback-rate
event on the source node and clears the bent flag. -/
def actionPitch (nowMS : ℚ) (mc : MixerChannel) (atTimeMS pitchValue : ℚ) :
    MixerChannel × Bool :=
  let atT := filterAtTimeNow nowMS atTimeMS
  let sn := mc.sourceNode.map (fun n =>
    { n with pitchEvents := n.pitchEvents ++ [(pitchValue, atT / 1000)] })
  ({ mc with sourceNode := sn, isBent := false }, true)

/-- `_actionGainFade(mc, atTimeMS, endGainVal, fadeNumBeats, trackBpm)`:
throws `IllegalParam` unless the bpm is positive; otherwise schedules the
two linear ramps - pin `1 - endGainVal` at the action time, then ramp to
`endGainVal` over `fadeNumBeats / trackBpm * 60` seconds.  The source
function has no return statement, so the call yields `undefined` (falsy),
modelled as `false`. -/
def actionGainFade (mc : MixerChannel) (atTimeMS endGainVal fadeNumBeats trackBpm : ℚ) :
    Except McError (MixerChannel × Bool) :=
  if !isPositive trackBpm then
    .error .IllegalParam
  else
    let fadeTimeSec := (fadeNumBeats / trackBpm) * 60
    let atTimeSec := atTimeMS / 1000
    let initialGainVal := 1 - endGainVal
    let g : GainNode :=
      ⟨mc.gainNode.events ++
        [⟨initialGainVal, atTimeSec⟩, ⟨endGainVal, atTimeSec + fadeTimeSec⟩]⟩
    .ok ({ mc with gainNode := g }, false)

/-- `addActionMc(action, baseTimeOffsetMS, mixSetOffsetTimeMS, minTimeMSAbs)`.
Note that the early minimum-time rejection compares
`_filterAtTimeNow(this, action.getActionTimeMSAbs())` - the action time
without the base/set offsets - against `minTimeMSAbs` (lines 130-131),
while the dispatched `actionTimeMSAbs` does add `baseTimeOffsetMS` and
subtract `mixSetOffsetTimeMS` (lines 137-139). -/
def addActionMc (nowMS : ℚ) (mc : MixerChannel) (action : TrackAction)
    (baseTimeOffsetMS mixSetOffsetTimeMS minTimeMSAbs : Option ℚ) :
    Except McError (MixerChannel × Bool) :=
  let e := ensureSourceNodePresent mc
  if !e.2 then
    .error .TrackNotLoaded
  else
    let mc := e.1
    let base := normTime baseTimeOffsetMS
    let setOff := normTime mixSetOffsetTimeMS
    let minT := normTime minTimeMSAbs
    if mc.track.guid = action.trackGuid then
      if filterAtTimeNow nowMS action.atTimeMSAbs < minT then
        .ok (mc, false)
      else
        let actionTimeMSAbs :=
          filterAtTimeNow nowMS action.atTimeMSAbs + base - setOff
        let record : MixerChannel × Bool → MixerChannel × Bool := fun r =>
          if r.2 && decide (action.target = .SOURCE) then
            ({ r.1 with actionsAddedCollection :=
                 r.1.actionsAddedCollection ++ [(action, actionTimeMSAbs)] }, r.2)
          else r
        match action.actionType with
        | .PLAY =>
          .ok (record (actionPlay nowMS mc actionTimeMSAbs action.offsetMS))
        | .STOP =>
          .ok (record (actionStop nowMS mc actionTimeMSAbs))
        | .PAUSE =>
          .ok (record (actionPause mc))
        | .PITCH =>
          .ok (record (actionPitch nowMS mc actionTimeMSAbs action.pitchValue))
        | .GAIN_FADE =>
          match actionGainFade mc actionTimeMSAbs action.endVal
              action.fadeNumBeats mc.track.bpm with
          | .error err => .error err
          | .ok r => .ok (record r)
    else
      .ok (mc, false)

/-- The loop body of `addActions`: `allAdded = allAdded && this.addActionMc(...)`.
JS `&&` short-circuits, so once `allAdded` is false the remaining calls are
skipped. -/
def addActionsLoop (nowMS : ℚ) (base setOff minT : Option ℚ) :
    List TrackAction → Bool → MixerChannel → Except McError (MixerChannel × Bool)
  | [], allAdded, mc => .ok (mc, allAdded)
  | a :: rest, allAdded, mc =>
    if allAdded then
      match addActionMc nowMS mc a base setOff minT with
      | .error e => .error e
      | .ok r => addActionsLoop nowMS base setOff minT rest r.2 r.1
    else
      addActionsLoop nowMS base setOff minT rest allAdded mc

/-- `addActions(actionList, ...)`. -/
def addActions (nowMS : ℚ) (mc : MixerChannel) (actionList : List TrackAction)
    (base setOff minT : Option ℚ) : Except McError (MixerChannel × Bool) :=
  addActionsLoop nowMS base setOff minT actionList true mc

/-- `clearActions(forceSourceNodeReset, forceGainNodeReset)`: resets the
added-actions collection; rebuilds the gain node only under
`forceGainNodeReset` (the unconditional `cancelScheduledValues` call is
commented out in the source), where `this.sourceNode.connect(...)` throws
a TypeError if the source node is null; then, when the queried state is
STOPPED or STOPPED_AND_PLAY_SCHEDULED or a source reset is forced,
recreates the source node and resets the play attributes. -/
def clearActions (nowMS : ℚ) (mc : MixerChannel)
    (forceSourceNodeReset forceGainNodeReset : Bool) :
    Except McError MixerChannel :=
  let mc := { mc with actionsAddedCollection := [] }
  let gainStep : Except McError MixerChannel :=
    if forceGainNodeReset then
      match mc.sourceNode with
      | none => .error .TypeErrorNullSource
      | some _ => .ok { mc with gainNode := freshGainNode }
    else
      .ok mc
  match gainStep with
  | .error e => .error e
  | .ok mc =>
    let r := getPlayState nowMS mc
    if r.1 = .STOPPED ∨ r.1 = .STOPPED_AND_PLAY_SCHEDULED ∨
        forceSourceNodeReset = true then
      let mc := { r.2 with playState := .STOPPED }
      let mc := (sourceNodeRecreate mc true).1
      .ok (resetPlayAttributes mc)
    else
      .ok r.2

/-! ### Claim C4: the lazy stop transition -/

/-- C4 (code bug): a channel in PLAYING_AND_STOP_SCHEDULED whose
`stopScheduledTimeMS` (1000) is already past at the query clock (2000)
still reports PLAYING_AND_STOP_SCHEDULED from `_getPlayState`, not
STOPPED as the claim, the spec and the source's own state-machine header
comment describe: line 721 reads the absent property `mc._playStates`
instead of `mc._playState`, so the stop branch never fires. -/
theorem C4_lazy_stop_transition_missing :
    (getPlayState 2000
      ⟨⟨"t1", .LOAD_SUCCESS, true, 120⟩, ⟨[]⟩,
       some ⟨true, some 0, some 0, some 1, []⟩, [],
       .PLAYING_AND_STOP_SCHEDULED, some 0, some 1000, some 0, none, none,
       false⟩).1 = .PLAYING_AND_STOP_SCHEDULED ∧
    timeReached (some (1000 : ℚ)) 2000 = true ∧
    PlayState.PLAYING_AND_STOP_SCHEDULED ≠ PlayState.STOPPED := by
  refine ⟨rfl, by decide, by decide⟩

/-! ### Claim C5: TrackNotLoaded and the play transition -/

/-- C5: on a channel with no source node whose hosted track has no decoded
buffer, `addActionMc` throws TrackNotLoaded for every action; once the
track has a buffer, a PLAY action for the hosted track from STOPPED (with
an acceptable time) succeeds and the channel moves to
STOPPED_AND_PLAY_SCHEDULED. -/
theorem C5_not_loaded_then_play :
    (∀ (nowMS : ℚ) (mc : MixerChannel) (action : TrackAction)
       (base setOff minT : Option ℚ),
       mc.sourceNode = none → mc.track.hasBuffer = false →
       addActionMc nowMS mc action base setOff minT = .error .TrackNotLoaded) ∧
    (∀ (nowMS : ℚ) (mc : MixerChannel) (action : TrackAction)
       (base setOff minT : Option ℚ),
       mc.sourceNode = none → mc.track.hasBuffer = true →
       mc.playState = .STOPPED →
       action.actionType = .PLAY →
       mc.track.guid = action.trackGuid →
       ¬(filterAtTimeNow nowMS action.atTimeMSAbs < normTime minT) →
       (addActionMc nowMS mc action base setOff minT).map
           (fun r => (r.2, r.1.playState)) =
         .ok (true, .STOPPED_AND_PLAY_SCHEDULED)) := by
  constructor
  · intro nowMS mc action base setOff minT hsrc hbuf
    simp [addActionMc, ensureSourceNodePresent, sourceNodeRecreate, hsrc, hbuf]
  · intro nowMS mc action base setOff minT hsrc hbuf hstate htype hguid htime
    cases htar : action.target <;>
      simp [addActionMc, ensureSourceNodePresent, sourceNodeRecreate,
        actionPlay, getPlayState, actionPlayHelper, freshSourceNode,
        Except.map, hsrc, hbuf, hstate, htype, hguid, htime, htar]

/-- Witness for C5 at concrete inputs: the same channel hosting "t1" first
without and then with a decoded buffer, receiving the same PLAY action. -/
theorem C5_not_loaded_then_play_witness :
    addActionMc 0
      ⟨⟨"t1", .NOT_LOADED, false, 120⟩, ⟨[]⟩, none, [], .STOPPED,
       none, none, none, none, none, false⟩
      ⟨.PLAY, .SOURCE, "t1", 100, some 0, 0, 0, 0⟩ none none none =
      .error .TrackNotLoaded ∧
    (addActionMc 0
      ⟨⟨"t1", .LOAD_SUCCESS, true, 120⟩, ⟨[]⟩, none, [], .STOPPED,
       none, none, none, none, none, false⟩
      ⟨.PLAY, .SOURCE, "t1", 100, some 0, 0, 0, 0⟩ none none none).map
        (fun r => (r.2, r.1.playState)) =
      .ok (true, .STOPPED_AND_PLAY_SCHEDULED) :=
  ⟨C5_not_loaded_then_play.1 0
      ⟨⟨"t1", .NOT_LOADED, false, 120⟩, ⟨[]⟩, none, [], .STOPPED,
       none, none, none, none, none, false⟩
      ⟨.PLAY, .SOURCE, "t1", 100, some 0, 0, 0, 0⟩ none none none rfl rfl,
   C5_not_loaded_then_play.2 0
      ⟨⟨"t1", .LOAD_SUCCESS, true, 120⟩, ⟨[]⟩, none, [], .STOPPED,
       none, none, none, none, none, false⟩
      ⟨.PLAY, .SOURCE, "t1", 100, some 0, 0, 0, 0⟩ none none none rfl rfl rfl
      rfl rfl (by norm_num [filterAtTimeNow, AT_TIME_NOW, normTime])⟩

/-! ### Claim C7: the reject rules of addActionMc -/

/-- `_ensureSourceNodePresent` never changes the hosted track or the gain
node. -/
theorem ensure_preserves (mc : MixerChannel) :
    (ensureSourceNodePresent mc).1.track = mc.track ∧
    (ensureSourceNodePresent mc).1.gainNode = mc.gainNode := by
  unfold ensureSourceNodePresent sourceNodeRecreate
  split_ifs <;> exact ⟨rfl, rfl⟩

/-- C7 counterexample: with `mixSetOffsetTimeMS = 50` and
`minTimeMSAbs = 100`, a PLAY action at `atTimeAbs = 100` for the hosted
track has effective time 100 + 0 - 50 = 50 < 100, so the claim demands a
`false` return; but the source compares only the "now"-resolved action
time (100, not below 100) against the minimum, so the action is accepted
and `addActionMc` returns `true`. -/
theorem C7_effective_time_counterexample :
    filterAtTimeNow 0 ((100 : ℚ)) + normTime none - normTime (some 50) <
      normTime (some 100) ∧
    (addActionMc 0
      ⟨⟨"t1", .LOAD_SUCCESS, true, 120⟩, ⟨[]⟩, none, [], .STOPPED,
       none, none, none, none, none, false⟩
      ⟨.PLAY, .SOURCE, "t1", 100, some 0, 0, 0, 0⟩
      none (some 50) (some 100)).map (fun r => r.2) = .ok true := by
  constructor
  · norm_num [filterAtTimeNow, AT_TIME_NOW, normTime]
  · rfl

/-- C7 as amended: provided a source node can be ensured (so no
TrackNotLoaded throw), `addActionMc` returns `false` without throwing when
the action's track id does not match the hosted track, and likewise when
the action's time with "now" resolved - before the base/set offsets are
applied - is earlier than the (normalized) minimum time. -/
theorem C7_reject_rules (nowMS : ℚ) (mc : MixerChannel)
    (action : TrackAction) (base setOff minT : Option ℚ)
    (hnode : (ensureSourceNodePresent mc).2 = true) :
    (mc.track.guid ≠ action.trackGuid →
      (addActionMc nowMS mc action base setOff minT).map (fun r => r.2) =
        .ok false) ∧
    (filterAtTimeNow nowMS action.atTimeMSAbs < normTime minT →
      (addActionMc nowMS mc action base setOff minT).map (fun r => r.2) =
        .ok false) := by
  rcases he : ensureSourceNodePresent mc with ⟨mc₁, ok⟩
  have htr : mc₁.track = mc.track := by
    have h := (ensure_preserves mc).1
    rw [he] at h
    exact h
  rw [he] at hnode
  dsimp only at hnode
  subst hnode
  constructor
  · intro hne
    unfold addActionMc
    rw [he]
    dsimp only
    rw [htr, if_neg hne]
    rfl
  · intro hlt
    unfold addActionMc
    rw [he]
    dsimp only
    by_cases hg : mc₁.track.guid = action.trackGuid
    · rw [if_pos hg, if_pos hlt]
      rfl
    · rw [if_neg hg]
      rfl

/-- Witness for C7 at concrete inputs: a guid-mismatching action is
rejected with `false`; an action whose resolved time 100 is below the
minimum 200 is rejected with `false`. -/
theorem C7_reject_rules_witness :
    (addActionMc 0
      ⟨⟨"t1", .LOAD_SUCCESS, true, 120⟩, ⟨[]⟩, none, [], .STOPPED,
       none, none, none, none, none, false⟩
      ⟨.PLAY, .SOURCE, "zz", 100, some 0, 0, 0, 0⟩ none none none).map
        (fun r => r.2) = .ok false ∧
    (addActionMc 0
      ⟨⟨"t1", .LOAD_SUCCESS, true, 120⟩, ⟨[]⟩, none, [], .STOPPED,
       none, none, none, none, none, false⟩
      ⟨.PLAY, .SOURCE, "t1", 100, some 0, 0, 0, 0⟩ none none (some 200)).map
        (fun r => r.2) = .ok false :=
  ⟨(C7_reject_rules 0
      ⟨⟨"t1", .LOAD_SUCCESS, true, 120⟩, ⟨[]⟩, none, [], .STOPPED,
       none, none, none, none, none, false⟩
      ⟨.PLAY, .SOURCE, "zz", 100, some 0, 0, 0, 0⟩ none none none rfl).1
      (by decide),
   (C7_reject_rules 0
      ⟨⟨"t1", .LOAD_SUCCESS, true, 120⟩, ⟨[]⟩, none, [], .STOPPED,
       none, none, none, none, none, false⟩
      ⟨.PLAY, .SOURCE, "t1", 100, some 0, 0, 0, 0⟩ none none (some 200) rfl).2
      (by norm_num [filterAtTimeNow, AT_TIME_NOW, normTime])⟩

/-! ### Claim C8: GAIN_FADE scheduling -/

/-- C8: every GAIN_FADE action that reaches its handler (guid match, time
check passed, positive bpm) schedules exactly two linear ramp events on
the gain node: the first pins `1 - endGainVal` at the action time, the
second ramps to `endGainVal` at the action time plus
`fadeNumBeats / trackBpm * 60` seconds. -/
theorem C8_gain_fade_ramps (nowMS : ℚ) (mc : MixerChannel)
    (action : TrackAction) (base setOff minT : Option ℚ)
    (hnode : (ensureSourceNodePresent mc).2 = true)
    (htype : action.actionType = .GAIN_FADE)
    (hguid : mc.track.guid = action.trackGuid)
    (htime : ¬(filterAtTimeNow nowMS action.atTimeMSAbs < normTime minT))
    (hbpm : isPositive mc.track.bpm = true) :
    (addActionMc nowMS mc action base setOff minT).map
        (fun r => r.1.gainNode.events) =
      .ok (mc.gainNode.events ++
        [⟨1 - action.endVal,
          (filterAtTimeNow nowMS action.atTimeMSAbs + normTime base -
            normTime setOff) / 1000⟩,
         ⟨action.endVal,
          (filterAtTimeNow nowMS action.atTimeMSAbs + normTime base -
            normTime setOff) / 1000 +
            action.fadeNumBeats / mc.track.bpm * 60⟩]) := by
  rcases he : ensureSourceNodePresent mc with ⟨mc₁, ok⟩
  have htr : mc₁.track = mc.track := by
    have h := (ensure_preserves mc).1
    rw [he] at h
    exact h
  have hgn : mc₁.gainNode = mc.gainNode := by
    have h := (ensure_preserves mc).2
    rw [he] at h
    exact h
  rw [he] at hnode
  dsimp only at hnode
  subst hnode
  unfold addActionMc
  rw [he]
  dsimp only
  rw [htr, if_pos hguid, if_neg htime, htype]
  unfold actionGainFade
  rw [htr, hbpm]
  simp [hgn, Except.map]

/-- Witness for C8 at a concrete input: `fadeBeats = 8`, `trackBpm = 120`
gives a fade duration of 4.0 seconds; a GAIN_FADE at 100ms with
`endGainVal = 1/4` schedules the two ramps `(3/4, 0.1s)` and
`(1/4, 4.1s)`. -/
theorem C8_gain_fade_ramps_witness :
    (addActionMc 0
      ⟨⟨"t1", .LOAD_SUCCESS, true, 120⟩, ⟨[]⟩, none, [], .STOPPED,
       none, none, none, none, none, false⟩
      ⟨.GAIN_FADE, .GAIN, "t1", 100, none, 0, (1 : ℚ)/4, 8⟩
      none none none).map (fun r => r.1.gainNode.events) =
      .ok [⟨(3 : ℚ)/4, (1 : ℚ)/10⟩, ⟨(1 : ℚ)/4, (41 : ℚ)/10⟩] := by
  have h := C8_gain_fade_ramps 0
    ⟨⟨"t1", .LOAD_SUCCESS, true, 120⟩, ⟨[]⟩, none, [], .STOPPED,
     none, none, none, none, none, false⟩
    ⟨.GAIN_FADE, .GAIN, "t1", 100, none, 0, (1 : ℚ)/4, 8⟩
    none none none rfl rfl rfl
    (by norm_num [filterAtTimeNow, AT_TIME_NOW, normTime]) rfl
  rw [h]
  norm_num [filterAtTimeNow, AT_TIME_NOW, normTime]

/-! ### Claim C3: addActions batching -/

/-- Once `allAdded` is false the loop never calls `addActionMc` again and
the channel passes through unchanged. -/
theorem addActionsLoop_false (nowMS : ℚ) (base setOff minT : Option ℚ)
    (l : List TrackAction) (mc : MixerChannel) :
    addActionsLoop nowMS base setOff minT l false mc = .ok (mc, false) := by
  induction l with
  | nil => rfl
  | cons a rest ih => simpa [addActionsLoop] using ih

/-- C3 counterexample: on a fresh loaded channel, the batch
[guid-mismatching action, acceptable PLAY action] returns `false` and
leaves the channel STOPPED - the PLAY element after the rejected one was
never attempted - although the same PLAY action alone on that loop state
is accepted and schedules the play.  `allAdded && addActionMc(...)`
short-circuits, so not every element is applied. -/
theorem C3_every_element_counterexample :
    (addActions 0
      ⟨⟨"t1", .LOAD_SUCCESS, true, 120⟩, ⟨[]⟩, none, [], .STOPPED,
       none, none, none, none, none, false⟩
      [⟨.PLAY, .SOURCE, "zz", 100, some 0, 0, 0, 0⟩,
       ⟨.PLAY, .SOURCE, "t1", 100, some 0, 0, 0, 0⟩]
      none none none).map (fun r => (r.2, r.1.playState)) =
      .ok (false, .STOPPED) ∧
    (addActionMc 0
      ⟨⟨"t1", .LOAD_SUCCESS, true, 120⟩, ⟨[]⟩,
       some ⟨false, none, none, none, []⟩, [], .STOPPED,
       none, none, none, none, none, false⟩
      ⟨.PLAY, .SOURCE, "t1", 100, some 0, 0, 0, 0⟩
      none none none).map (fun r => (r.2, r.1.playState)) =
      .ok (true, .STOPPED_AND_PLAY_SCHEDULED) := by
  exact ⟨rfl, rfl⟩

/-- C3 as amended: `addActions` folds `addActionMc` from the left but
stops attempting elements after the first rejection: the loop body is
`allAdded = allAdded && this.addActionMc(...)` and JS `&&` short-circuits,
so elements after a rejected one are never attempted and the channel keeps
only the partial application up to (and including) the rejected call; the
batch returns `true` iff every action in the list was attempted and
accepted.  An empty batch returns `true` with the channel untouched; a
batch starting with an accepted action continues on the updated channel;
a batch starting with a rejected action returns `false` immediately with
the channel as that call left it; a throw propagates. -/
theorem C3_addActions_short_circuit :
    (∀ (nowMS : ℚ) (mc : MixerChannel) (base setOff minT : Option ℚ),
       addActions nowMS mc [] base setOff minT = .ok (mc, true)) ∧
    (∀ (nowMS : ℚ) (mc : MixerChannel) (a : TrackAction)
       (rest : List TrackAction) (base setOff minT : Option ℚ),
       addActions nowMS mc (a :: rest) base setOff minT =
         match addActionMc nowMS mc a base setOff minT with
         | .error e => .error e
         | .ok (mc₁, true) => addActions nowMS mc₁ rest base setOff minT
         | .ok (mc₁, false) => .ok (mc₁, false)) := by
  refine ⟨fun _ _ _ _ _ => rfl, ?_⟩
  intro nowMS mc a rest base setOff minT
  rcases h : addActionMc nowMS mc a base setOff minT with e | r
  · simp [addActions, addActionsLoop, h]
  · rcases r with ⟨mc₁, b⟩
    cases b
    · simp [addActions, addActionsLoop, h, addActionsLoop_false]
    · simp [addActions, addActionsLoop, h]

/-! ### Claim C9: clearActions -/

/-- C9 counterexample: with both force flags false (the documented
defaults), `clearActions` on a stopped channel with a pending gain ramp
leaves the gain node's automation in place - the unconditional
`cancelScheduledValues` call is commented out in the source, so pending
gain automation is cleared only under `forceGainNodeReset`. -/
theorem C9_gain_not_cleared_counterexample :
    (clearActions 0
      ⟨⟨"t1", .LOAD_SUCCESS, true, 120⟩, ⟨[⟨(1 : ℚ)/2, 3⟩]⟩,
       some ⟨false, none, none, none, []⟩, [], .STOPPED,
       none, none, none, none, none, false⟩ false false).map
        (fun m => m.gainNode.events) = .ok [⟨(1 : ℚ)/2, 3⟩] ∧
    ([⟨(1 : ℚ)/2, 3⟩] : List GainEvent) ≠ [] := by
  exact ⟨rfl, by decide⟩

/-- C9 as amended: for every channel state and flag combination (with a
source node present whenever `forceGainReset` is set, since the gain-reset
branch dereferences it), `clearActions` always clears and discards the
replay log; it clears the gain node's pending automation only when
`forceGainReset` is set (re-creating the gain node); and the source node
is discarded and recreated (from the track's buffer, or dropped when no
buffer exists) exactly when the queried play state is STOPPED or
STOPPED_AND_PLAY_SCHEDULED or a source reset is forced. -/
theorem C9_clearActions_behaviour (nowMS : ℚ) (mc : MixerChannel)
    (fs fg : Bool) (hsrc : fg = true → mc.sourceNode.isSome = true) :
    (clearActions nowMS mc fs fg).map (fun m => m.actionsAddedCollection) =
      .ok [] ∧
    (clearActions nowMS mc fs fg).map (fun m => m.gainNode.events) =
      .ok (if fg then [] else mc.gainNode.events) ∧
    (clearActions nowMS mc fs fg).map (fun m => m.sourceNode) =
      .ok (if (getPlayState nowMS mc).1 = .STOPPED ∨
              (getPlayState nowMS mc).1 = .STOPPED_AND_PLAY_SCHEDULED ∨
              fs = true
           then (if mc.track.hasBuffer = true then some freshSourceNode
                 else none)
           else mc.sourceNode) := by
  cases fg with
  | false =>
    cases hps : mc.playState <;> cases fs <;>
      cases hbuf : mc.track.hasBuffer <;>
      by_cases htr : timeReached mc.startScheduledTimeMS nowMS = true <;>
      simp [clearActions, getPlayState, playStatesTypo, sourceNodeRecreate,
        resetPlayAttributes, freshGainNode, Except.map, hps, hbuf, htr]
  | true =>
    have hs := hsrc rfl
    rcases hsn : mc.sourceNode with _ | n
    · rw [hsn] at hs
      simp at hs
    · cases hps : mc.playState <;> cases fs <;>
        cases hbuf : mc.track.hasBuffer <;>
        by_cases htr : timeReached mc.startScheduledTimeMS nowMS = true <;>
        simp [clearActions, getPlayState, playStatesTypo, sourceNodeRecreate,
          resetPlayAttributes, freshGainNode, Except.map, hps, hbuf, htr, hsn]

/-- Witness for C9 at a concrete input: a stopped channel with one pending
gain ramp, cleared with `forceGainReset` set: the log and the gain
automation are emptied and the source node is rebuilt fresh. -/
theorem C9_clearActions_behaviour_witness :
    (clearActions 0
      ⟨⟨"t1", .LOAD_SUCCESS, true, 120⟩, ⟨[⟨(1 : ℚ)/2, 3⟩]⟩,
       some ⟨false, none, none, none, []⟩,
       [(⟨.PLAY, .SOURCE, "t1", 0, some 0, 0, 0, 0⟩, 0)], .STOPPED,
       none, none, none, none, none, false⟩ false true).map
        (fun m => m.actionsAddedCollection) = .ok [] ∧
    (clearActions 0
      ⟨⟨"t1", .LOAD_SUCCESS, true, 120⟩, ⟨[⟨(1 : ℚ)/2, 3⟩]⟩,
       some ⟨false, none, none, none, []⟩,
       [(⟨.PLAY, .SOURCE, "t1", 0, some 0, 0, 0, 0⟩, 0)], .STOPPED,
       none, none, none, none, none, false⟩ false true).map
        (fun m => m.gainNode.events) =
      .ok (if true then []
           else (⟨[⟨(1 : ℚ)/2, 3⟩]⟩ : GainNode).events) ∧
    (clearActions 0
      ⟨⟨"t1", .LOAD_SUCCESS, true, 120⟩, ⟨[⟨(1 : ℚ)/2, 3⟩]⟩,
       some ⟨false, none, none, none, []⟩,
       [(⟨.PLAY, .SOURCE, "t1", 0, some 0, 0, 0, 0⟩, 0)], .STOPPED,
       none, none, none, none, none, false⟩ false true).map
        (fun m => m.sourceNode) =
      .ok (if (getPlayState 0
              ⟨⟨"t1", .LOAD_SUCCESS, true, 120⟩, ⟨[⟨(1 : ℚ)/2, 3⟩]⟩,
               some ⟨false, none, none, none, []⟩,
               [(⟨.PLAY, .SOURCE, "t1", 0, some 0, 0, 0, 0⟩, 0)], .STOPPED,
               none, none, none, none, none, false⟩).1 = .STOPPED ∨
              (getPlayState 0
              ⟨⟨"t1", .LOAD_SUCCESS, true, 120⟩, ⟨[⟨(1 : ℚ)/2, 3⟩]⟩,
               some ⟨false, none, none, none, []⟩,
               [(⟨.PLAY, .SOURCE, "t1", 0, some 0, 0, 0, 0⟩, 0)], .STOPPED,
               none, none, none, none, none, false⟩).1 =
                .STOPPED_AND_PLAY_SCHEDULED ∨
              false = true
           then (if (⟨"t1", .LOAD_SUCCESS, true, 120⟩ : Track).hasBuffer = true
                 then some freshSourceNode
                 else none)
           else some ⟨false, none, none, none, []⟩) :=
  C9_clearActions_behaviour 0
    ⟨⟨"t1", .LOAD_SUCCESS, true, 120⟩, ⟨[⟨(1 : ℚ)/2, 3⟩]⟩,
     some ⟨false, none, none, none, []⟩,
     [(⟨.PLAY, .SOURCE, "t1", 0, some 0, 0, 0, 0⟩, 0)], .STOPPED,
     none, none, none, none, none, false⟩ false true (fun _ => rfl)

end FabricSnippets
